import Mathlib

/-!
Verification of the line-annotation pipeline of `src/annotate.py`
(Source-to-AST repository).

The development shallowly embeds the JSON-like document model, the filter
profiles (`should_include_node`), the correlation engine
(`collect_line_annotations` with its inner `process_location`), and the
explanation synthesizer (`HardcodedExplainer`).  Python dictionaries of sets
become functions into `Finset String`; Python string scanning primitives are
re-implemented over character lists so that everything evaluates inside the
kernel.  Modelling notes:

* node `kind` fields and location `file` fields are modelled as strings
  (the external parser, clang, always emits strings there);
* `os.path.abspath` applied to an already absolute path only normalizes it;
  clang emits normalized paths, so it is modelled as the identity
  (`normAbs`); `os.path.basename` is the POSIX final path component;
* Python `str.lower` / `str.strip` are modelled by `lowerStr` / `trimStr`.
-/

namespace Annotate

/-! ### Character-list string utilities (models of Python string primitives) -/

/-- Lexicographic (code-point) comparison of character lists, the order used
by Python `sorted` on strings. -/
def charLe : List Char → List Char → Bool
  | [], _ => true
  | _ :: _, [] => false
  | a :: as, b :: bs => if a < b then true else if a = b then charLe as bs else false

/-- Python `a <= b` on strings. -/
def strLe (a b : String) : Bool := charLe a.data b.data

/-- Insert into a sorted list, keeping it sorted (ascending). -/
def insertSorted (x : String) : List String → List String
  | [] => [x]
  | y :: ys => if strLe x y then x :: y :: ys else y :: insertSorted x ys

/-- Model of Python `sorted` on a list of strings (insertion sort). -/
def sortStrings : List String → List String
  | [] => []
  | x :: xs => insertSorted x (sortStrings xs)

/-- Character-list prefix test. -/
def isPrefixCh : List Char → List Char → Bool
  | [], _ => true
  | _ :: _, [] => false
  | p :: ps, c :: cs => p = c && isPrefixCh ps cs

/-- Character-list substring test. -/
def containsCh (pat : List Char) : List Char → Bool
  | [] => isPrefixCh pat []
  | c :: cs => isPrefixCh pat (c :: cs) || containsCh pat cs

/-- Model of Python `pat in s` (substring containment). -/
def strContains (s pat : String) : Bool := containsCh pat.data s.data

/-- Model of Python `s.startswith(pat)`. -/
def strStartsWith (s pat : String) : Bool := isPrefixCh pat.data s.data

/-- Model of Python `s.endswith(pat)`. -/
def strEndsWith (s pat : String) : Bool := isPrefixCh pat.data.reverse s.data.reverse

/-- Model of Python `s.lower()` (per-character lowercasing). -/
def lowerStr (s : String) : String := ⟨s.data.map Char.toLower⟩

/-- Model of Python `s.strip()` (drop whitespace at both ends). -/
def trimStr (s : String) : String :=
  ⟨((s.data.dropWhile Char.isWhitespace).reverse.dropWhile Char.isWhitespace).reverse⟩

/-! ### Path model (POSIX, as used by `os.path`) -/

/-- Model of `os.path.isabs`. -/
def isAbs (p : String) : Bool :=
  match p.data with
  | [] => false
  | c :: _ => c = '/'

/-- `os.path.abspath` applied to an already absolute path: pure normalization;
clang emits normalized paths, so this is the identity in the model. -/
def normAbs (p : String) : String := p

/-- The value `file_abs` computed in `process_location`:
`os.path.abspath(file_path) if os.path.isabs(file_path) else file_path`. -/
def fileAbsOf (p : String) : String := if isAbs p then normAbs p else p

/-- Final path component after the last slash, as `os.path.basename`. -/
def basenameAux (cur : List Char) : List Char → List Char
  | [] => cur
  | c :: cs => if c = '/' then basenameAux [] cs else basenameAux (cur ++ [c]) cs

/-- Model of `os.path.basename`. -/
def basename (p : String) : String := ⟨basenameAux [] p.data⟩

/-! ### JSON-like documents (the clang AST dump consumed by the script) -/

/-- A JSON-like value: the recursively nested document produced by the
external parser (`json.loads` output). -/
inductive JValue where
  | null
  | bool (b : Bool)
  | int (n : Int)
  | str (s : String)
  | list (items : List JValue)
  | dict (fields : List (String × JValue))

/-- Python truthiness of a JSON value. -/
def JValue.truthy : JValue → Bool
  | .null => false
  | .bool b => b
  | .int n => n != 0
  | .str s => s != ""
  | .list items => !items.isEmpty
  | .dict fields => !fields.isEmpty

/-- Python `isinstance(v, dict)`. -/
def JValue.isDict : JValue → Bool
  | .dict _ => true
  | _ => false

/-- Python `node.get(key)` on a dict (and `None`, i.e. `none`, otherwise). -/
def JValue.getField : JValue → String → Option JValue
  | .dict fields, key => (fields.find? (fun p => p.1 == key)).map (fun p => p.2)
  | _, _ => none

mutual

/-- Structural equality test on JSON values (Python `==` / `!=`). -/
def beqV : JValue → JValue → Bool
  | .null, .null => true
  | .bool a, .bool b => a == b
  | .int a, .int b => a == b
  | .str a, .str b => a == b
  | .list a, .list b => beqL a b
  | .dict a, .dict b => beqF a b
  | _, _ => false

/-- Structural equality test on lists of JSON values. -/
def beqL : List JValue → List JValue → Bool
  | [], [] => true
  | a :: as, b :: bs => beqV a b && beqL as bs
  | _, _ => false

/-- Structural equality test on dict field lists. -/
def beqF : List (String × JValue) → List (String × JValue) → Bool
  | [], [] => true
  | (k1, v1) :: as, (k2, v2) :: bs => k1 == k2 && beqV v1 v2 && beqF as bs
  | _, _ => false

end

/-- Equality test lifted to optional JSON values (Python compares the results
of `dict.get`, which may be `None`). -/
def optBeq : Option JValue → Option JValue → Bool
  | none, none => true
  | some a, some b => beqV a b
  | _, _ => false

/-! ### Filter profiles (`should_include_node`) -/

/-- The `important_nodes` set of the `minimal` profile. -/
def important_nodes : List String :=
  ["FunctionDecl", "CXXMethodDecl", "CXXConstructorDecl", "CXXDestructorDecl",
   "CXXRecordDecl", "ClassTemplateDecl", "VarDecl", "FieldDecl",
   "IfStmt", "ForStmt", "WhileStmt", "CXXForRangeStmt", "SwitchStmt",
   "ReturnStmt", "BreakStmt", "ContinueStmt", "CompoundStmt"]

/-- The `noise_nodes` set of the `clean` profile. -/
def noise_nodes : List String :=
  ["MaterializeTemporaryExpr", "CXXBindTemporaryExpr", "ExprWithCleanups",
   "ParenExpr", "AlignedAttr", "VisibilityAttr"]

/-- The `decl_nodes` set of the `declarations` profile. -/
def decl_nodes : List String :=
  ["FunctionDecl", "CXXMethodDecl", "CXXConstructorDecl", "CXXDestructorDecl",
   "CXXRecordDecl", "ClassTemplateDecl", "VarDecl", "FieldDecl",
   "ParmVarDecl", "NamespaceDecl", "UsingDecl", "TypedefDecl"]

/-- The `stmt_nodes` set of the `statements` profile. -/
def stmt_nodes : List String :=
  ["IfStmt", "ForStmt", "WhileStmt", "CXXForRangeStmt", "SwitchStmt",
   "ReturnStmt", "BreakStmt", "ContinueStmt", "CompoundStmt",
   "DeclStmt", "ExprStmt", "NullStmt"]

/-- `should_include_node(kind, filter_config)` from `src/annotate.py`. -/
def should_include_node (kind filter_config : String) : Bool :=
  if filter_config = "minimal" then important_nodes.contains kind
  else if filter_config = "clean" then !(noise_nodes.contains kind)
  else if filter_config = "declarations" then decl_nodes.contains kind
  else if filter_config = "statements" then stmt_nodes.contains kind
  else true

/-! ### The per-line tag map -/

/-- `line_map`: a mapping from line numbers to sets of node kinds
(a Python `dict` of `set`s). -/
def LineMap : Type := Int → Finset String

/-- `line_map.setdefault(line, set()).add(kind)`. -/
def addTag (m : LineMap) (line : Int) (kind : String) : LineMap :=
  fun l => if l = line then insert kind (m l) else m l

/-- The initially empty `line_map`. -/
def emptyMap : LineMap := fun _ => ∅

/-! ### The correlation engine (`collect_line_annotations`) -/

/-- The `kind` of a node: `node.get("kind")`.  clang emits string kinds, so
only string values are modelled. -/
def kindOf (node : JValue) : Option String :=
  match node.getField "kind" with
  | some (.str s) => some s
  | _ => none

/-- `loc_info.get("file", "")`.  clang emits string file names, so a
non-string value is modelled like an absent one. -/
def strFileOf (loc : JValue) : String :=
  match loc.getField "file" with
  | some (.str s) => s
  | _ => ""

/-- The line number of a location, if it passes the
`line and isinstance(line, int)` guard (a truthy `int`). -/
def lineVal (loc : JValue) : Option Int :=
  match loc.getField "line" with
  | some (.int n) => if n = 0 then none else some n
  | _ => none

/-- `process_location(loc_info, node_kind)`, the inner helper of
`collect_line_annotations`; `target_abs` is the (run-constant) value of
`os.path.abspath(target_file_path)`. -/
def process_location (target_abs filter_config : String) (loc_info : JValue)
    (node_kind : Option String) (line_map : LineMap) : LineMap :=
  if loc_info.truthy && loc_info.isDict then
    match lineVal loc_info, node_kind with
    | some line, some kind =>
      if kind = "" then line_map
      else if strFileOf loc_info = "" then
        if should_include_node kind filter_config then addTag line_map line kind
        else line_map
      else if fileAbsOf (strFileOf loc_info) = target_abs ∨
          basename (fileAbsOf (strFileOf loc_info)) = basename target_abs then
        if should_include_node kind filter_config then addTag line_map line kind
        else line_map
      else line_map
    | _, _ => line_map
  else line_map

/-- The `loc = node.get("loc"); if loc: process_location(loc, kind)` step. -/
def processLoc (target_abs filter_config : String) (node : JValue)
    (node_kind : Option String) (line_map : LineMap) : LineMap :=
  match node.getField "loc" with
  | some loc => if loc.truthy then process_location target_abs filter_config loc node_kind line_map else line_map
  | none => line_map

/-- The `range_info = node.get("range"); ...` step: register `begin`, then
`end` when `end and end != begin` (`end != begin` compares the two raw
`dict.get` results, either of which may be `None`). -/
def processRange (target_abs filter_config : String) (node : JValue)
    (node_kind : Option String) (line_map : LineMap) : LineMap :=
  match node.getField "range" with
  | some range_info =>
    if range_info.truthy && range_info.isDict then
      match range_info.getField "begin", range_info.getField "end" with
      | some bv, some ev =>
          let m1 := if bv.truthy then process_location target_abs filter_config bv node_kind line_map else line_map
          if ev.truthy && !(optBeq (some ev) (some bv)) then
            process_location target_abs filter_config ev node_kind m1
          else m1
      | some bv, none =>
          if bv.truthy then process_location target_abs filter_config bv node_kind line_map else line_map
      | none, some ev =>
          if ev.truthy && !(optBeq (some ev) none) then
            process_location target_abs filter_config ev node_kind line_map
          else line_map
      | none, none => line_map
    else line_map
  | none => line_map

mutual

/-- `collect_line_annotations(node, line_map, target_file_path, filter_config)`
as a pure map transformer. -/
def collect (target_abs filter_config : String) : JValue → LineMap → LineMap
  | .dict fields, m =>
      let kind := kindOf (.dict fields)
      let m1 := processLoc target_abs filter_config (.dict fields) kind m
      let m2 := processRange target_abs filter_config (.dict fields) kind m1
      collectFields target_abs filter_config fields m2
  | .list items, m => collectList target_abs filter_config items m
  | _, m => m

/-- The `elif isinstance(node, list)` branch: visit list elements in order. -/
def collectList (target_abs filter_config : String) : List JValue → LineMap → LineMap
  | [], m => m
  | x :: xs, m => collectList target_abs filter_config xs (collect target_abs filter_config x m)

/-- The `for value in node.values()` loop: visit dict values in order. -/
def collectFields (target_abs filter_config : String) : List (String × JValue) → LineMap → LineMap
  | [], m => m
  | (_, v) :: xs, m => collectFields target_abs filter_config xs (collect target_abs filter_config v m)

end

/-! ### The explanation synthesizer (`HardcodedExplainer`) -/

/-- `HardcodedExplainer._build_explanation_map`: the catalog of per-kind
descriptions. -/
def explanations : List (String × String) :=
  [("FunctionDecl", "declares a function with its signature and body"),
   ("CXXMethodDecl", "declares a class method or member function"),
   ("CXXConstructorDecl", "declares a class constructor"),
   ("CXXDestructorDecl", "declares a class destructor"),
   ("CXXRecordDecl", "declares a class, struct, or union type"),
   ("ClassTemplateDecl", "declares a class template"),
   ("VarDecl", "declares a variable with optional initialization"),
   ("FieldDecl", "declares a class member variable or field"),
   ("ParmVarDecl", "declares a function parameter"),
   ("NamespaceDecl", "declares or opens a namespace"),
   ("UsingDecl", "brings a name from another namespace into scope"),
   ("TypedefDecl", "creates a type alias using typedef"),
   ("EnumDecl", "declares an enumeration type"),
   ("EnumConstantDecl", "declares an enumeration constant"),
   ("CompoundStmt", "represents a block of statements enclosed in braces \x7b\x7d"),
   ("IfStmt", "represents an if conditional statement"),
   ("ForStmt", "represents a traditional for loop"),
   ("WhileStmt", "represents a while loop"),
   ("CXXForRangeStmt", "represents a range-based for loop (C++11)"),
   ("SwitchStmt", "represents a switch statement for multi-way branching"),
   ("CaseStmt", "represents a case label in a switch statement"),
   ("DefaultStmt", "represents the default case in a switch statement"),
   ("ReturnStmt", "returns a value from a function"),
   ("BreakStmt", "breaks out of a loop or switch statement"),
   ("ContinueStmt", "continues to the next iteration of a loop"),
   ("DeclStmt", "represents a declaration statement"),
   ("ExprStmt", "represents an expression used as a statement"),
   ("NullStmt", "represents an empty statement (just a semicolon)"),
   ("DoStmt", "represents a do-while loop"),
   ("GotoStmt", "represents a goto statement"),
   ("LabelStmt", "represents a labeled statement"),
   ("BinaryOperator", "performs a binary operation (e.g., +, -, ==, &&)"),
   ("UnaryOperator", "performs a unary operation (e.g., ++, --, !, ~)"),
   ("ConditionalOperator", "represents the ternary operator (condition ? true : false)"),
   ("CallExpr", "represents a function call"),
   ("CXXOperatorCallExpr", "represents an overloaded operator call in C++"),
   ("CXXMemberCallExpr", "represents a call to a class member function"),
   ("MemberExpr", "accesses a member of a struct/class (e.g., obj.member)"),
   ("ArraySubscriptExpr", "accesses an array element using [] operator"),
   ("DeclRefExpr", "references a previously declared variable or function"),
   ("IntegerLiteral", "represents an integer constant (e.g., 42, 0xFF)"),
   ("FloatingLiteral", "represents a floating-point constant (e.g., 3.14)"),
   ("StringLiteral", "represents a string literal (e.g., \"hello\")"),
   ("CharacterLiteral", "represents a character literal (e.g., \x27a\x27)"),
   ("CXXBoolLiteralExpr", "represents a boolean literal (true or false)"),
   ("CXXNullPtrLiteralExpr", "represents a nullptr literal"),
   ("AssignmentOperator", "assigns a value to a variable (=, +=, -=, etc.)"),
   ("CompoundAssignOperator", "performs compound assignment (+=, -=, *=, etc.)"),
   ("CXXNewExpr", "allocates memory using the new operator"),
   ("CXXDeleteExpr", "deallocates memory using the delete operator"),
   ("CXXThisExpr", "represents the \x27this\x27 pointer in a class method"),
   ("CXXThrowExpr", "throws an exception"),
   ("CXXTryStmt", "represents a try-catch block for exception handling"),
   ("CXXCatchStmt", "represents a catch block in exception handling"),
   ("CXXConstructExpr", "constructs an object using a constructor"),
   ("CXXTemporaryObjectExpr", "creates a temporary object"),
   ("CXXFunctionalCastExpr", "performs a functional-style cast"),
   ("CXXStaticCastExpr", "performs a static_cast"),
   ("CXXDynamicCastExpr", "performs a dynamic_cast"),
   ("CXXReinterpretCastExpr", "performs a reinterpret_cast"),
   ("CXXConstCastExpr", "performs a const_cast"),
   ("ImplicitCastExpr", "performs an implicit type conversion"),
   ("CStyleCastExpr", "performs a C-style cast"),
   ("ParenExpr", "represents parenthesized expression"),
   ("SizeOfExpr", "calculates the size of a type or expression"),
   ("MaterializeTemporaryExpr", "materializes a temporary object"),
   ("ExprWithCleanups", "manages cleanup of temporary objects"),
   ("CXXBindTemporaryExpr", "binds a temporary object for cleanup"),
   ("AlignedAttr", "specifies memory alignment requirements"),
   ("VisibilityAttr", "controls symbol visibility"),
   ("DeprecatedAttr", "marks a declaration as deprecated"),
   ("NoReturnAttr", "indicates a function never returns"),
   ("TemplateTypeParmDecl", "declares a template type parameter"),
   ("NonTypeTemplateParmDecl", "declares a non-type template parameter"),
   ("TemplateTemplateParmDecl", "declares a template template parameter"),
   ("ClassTemplateSpecializationDecl", "specializes a class template"),
   ("FunctionTemplateDecl", "declares a function template"),
   ("LambdaExpr", "defines a lambda expression (anonymous function)"),
   ("CXXDefaultArgExpr", "represents a default argument in function call"),
   ("InitListExpr", "represents brace-enclosed initializer list"),
   ("DesignatedInitExpr", "represents designated initializer (C99/C++20)"),
   ("CompoundLiteralExpr", "represents a compound literal"),
   ("MacroExpansion", "represents an expanded macro"),
   ("InclusionDirective", "represents a #include directive")]

/-- `HardcodedExplainer._build_pattern_explanations`: the ordered pattern
catalog. -/
def patterns : List (List String × String) :=
  [(["FunctionDecl", "CompoundStmt"], "defines a function with a body containing statements"),
   (["FunctionDecl", "ParmVarDecl"], "defines a function that takes parameters"),
   (["CallExpr", "DeclRefExpr"], "calls a previously declared function"),
   (["VarDecl", "IntegerLiteral"], "declares an integer variable with a literal value"),
   (["VarDecl", "CallExpr"], "declares a variable initialized by a function call"),
   (["AssignmentOperator", "DeclRefExpr"], "assigns a value to an existing variable"),
   (["IfStmt", "BinaryOperator"], "conditional statement with a comparison"),
   (["ForStmt", "BinaryOperator"], "for loop with a comparison condition"),
   (["WhileStmt", "BinaryOperator"], "while loop with a comparison condition"),
   (["CXXRecordDecl", "CXXMethodDecl"], "defines a class with member methods"),
   (["CXXRecordDecl", "FieldDecl"], "defines a class with member variables"),
   (["CXXConstructorDecl", "MemberExpr"], "constructor that initializes member variables"),
   (["BinaryOperator", "DeclRefExpr"], "performs an operation on variables"),
   (["CallExpr", "MemberExpr"], "calls a method on an object"),
   (["ArraySubscriptExpr", "DeclRefExpr"], "accesses an array element"),
   (["CXXNewExpr", "CXXConstructExpr"], "dynamically creates an object"),
   (["CXXDeleteExpr", "DeclRefExpr"], "deallocates a dynamically allocated object")]

/-- Catalog lookup: `node in self.explanations` / `self.explanations[node]`. -/
def lookupExpl (node : String) : Option String :=
  (explanations.find? (fun p => p.1 == node)).map (fun p => p.2)

/-- The body of the fallback loop: the catalog description of a tag, or the
generic `"AST node: <tag>"` text for an unknown tag. -/
def describeTag (node : String) : String :=
  match lookupExpl node with
  | some d => d
  | none => "AST node: " ++ node

/-- The pattern phase: try pattern rules in declared order, return the text of
the first rule all of whose tags occur in `sorted_nodes`. -/
def firstPattern (sorted_nodes : List String) : List (List String × String) → Option String
  | [] => none
  | (pattern_nodes, explanation) :: rest =>
      if pattern_nodes.all (fun node => decide (node ∈ sorted_nodes)) then some explanation
      else firstPattern sorted_nodes rest

/-- `HardcodedExplainer.explain_ast_nodes`. -/
def explain_ast_nodes (ast_nodes : List String) (source_line : String) : String :=
  if ast_nodes = [] then ""
  else
    let sorted_nodes := sortStrings ast_nodes
    match firstPattern sorted_nodes patterns with
    | some explanation => explanation
    | none =>
      let explns := sorted_nodes.map describeTag
      match explns with
      | [] => ""
      | [e] => e
      | [e1, e2] => e1 ++ " and " ++ e2
      | es => "combines " ++ String.intercalate ", " es.dropLast ++ ", and " ++ es.getLastD ""

/-- `HardcodedExplainer.get_detailed_explanation`: the plain explanation plus
the `elif` chain of contextual hints over `source_line.lower().strip()`. -/
def get_detailed_explanation (ast_nodes : List String) (source_line : String) : String :=
  let explanation := explain_ast_nodes ast_nodes source_line
  let line_lower := trimStr (lowerStr source_line)
  if strContains line_lower "main(" then
    explanation ++ " (this is the program\x27s entry point)"
  else if strStartsWith line_lower "class " || strStartsWith line_lower "struct " then
    explanation ++ " (defining a new data type)"
  else if strStartsWith line_lower "#include" then
    explanation ++ " (including external code)"
  else if strContains line_lower "cout" || strContains line_lower "printf" then
    explanation ++ " (performing output operation)"
  else if strContains line_lower "cin" || strContains line_lower "scanf" then
    explanation ++ " (performing input operation)"
  else if strEndsWith line_lower ";" && strContains line_lower "=" && !(strStartsWith (trimStr line_lower) "for") then
    explanation ++ " (assignment or initialization)"
  else explanation

/-! ### Specification-side restatements (used to express the claims) -/

/-- Modelled from the spec (§4.3 Step 3): the ordered contextual heuristics of
detailed mode, each a predicate on the case-folded, trimmed source text paired
with its fixed parenthesized annotation. -/
def heuristicList : List ((String → Bool) × String) :=
  [(fun s => strContains s "main(", " (this is the program\x27s entry point)"),
   (fun s => strStartsWith s "class " || strStartsWith s "struct ", " (defining a new data type)"),
   (fun s => strStartsWith s "#include", " (including external code)"),
   (fun s => strContains s "cout" || strContains s "printf", " (performing output operation)"),
   (fun s => strContains s "cin" || strContains s "scanf", " (performing input operation)"),
   (fun s => strEndsWith s ";" && strContains s "=" && !(strStartsWith (trimStr s) "for"),
    " (assignment or initialization)")]

/-- The annotation of the first matching heuristic, or `""` when none match. -/
def firstHeuristic : List ((String → Bool) × String) → String → String
  | [], _ => ""
  | (p, note) :: rest, s => if p s then note else firstHeuristic rest s

/-- The fallback combination rule as amended: one description verbatim, two
joined with " and ", three or more prefixed with "combines " and joined
Oxford-style. -/
def combineDescriptions : List String → String
  | [] => ""
  | [e] => e
  | [e1, e2] => e1 ++ " and " ++ e2
  | es => "combines " ++ String.intercalate ", " es.dropLast ++ ", and " ++ es.getLastD ""

/-! ### Derived views of a location, used to state the claims -/

/-- The line at which `process_location` would register, if any: the location
must be a truthy dict with a truthy integer `line`. -/
def locLineOf (loc : JValue) : Option Int :=
  if loc.truthy && loc.isDict then lineVal loc else none

/-- The file-ownership test of `process_location`: no (or empty) `file` field,
or absolute-path equality, or basename equality with the target. -/
def fileOkOf (target_abs : String) (loc : JValue) : Bool :=
  if strFileOf loc = "" then true
  else if fileAbsOf (strFileOf loc) = target_abs ∨
      basename (fileAbsOf (strFileOf loc)) = basename target_abs then true
  else false

/-! ### Soundness of the structural equality test -/

mutual

theorem beqV_eq : (a b : JValue) → beqV a b = true → a = b
  | .null, .null, _ => rfl
  | .null, .bool _, h => by simp [beqV] at h
  | .null, .int _, h => by simp [beqV] at h
  | .null, .str _, h => by simp [beqV] at h
  | .null, .list _, h => by simp [beqV] at h
  | .null, .dict _, h => by simp [beqV] at h
  | .bool _, .null, h => by simp [beqV] at h
  | .bool x, .bool y, h => by simp [beqV] at h; simp [h]
  | .bool _, .int _, h => by simp [beqV] at h
  | .bool _, .str _, h => by simp [beqV] at h
  | .bool _, .list _, h => by simp [beqV] at h
  | .bool _, .dict _, h => by simp [beqV] at h
  | .int _, .null, h => by simp [beqV] at h
  | .int _, .bool _, h => by simp [beqV] at h
  | .int x, .int y, h => by simp [beqV] at h; simp [h]
  | .int _, .str _, h => by simp [beqV] at h
  | .int _, .list _, h => by simp [beqV] at h
  | .int _, .dict _, h => by simp [beqV] at h
  | .str _, .null, h => by simp [beqV] at h
  | .str _, .bool _, h => by simp [beqV] at h
  | .str _, .int _, h => by simp [beqV] at h
  | .str x, .str y, h => by simp [beqV] at h; simp [h]
  | .str _, .list _, h => by simp [beqV] at h
  | .str _, .dict _, h => by simp [beqV] at h
  | .list _, .null, h => by simp [beqV] at h
  | .list _, .bool _, h => by simp [beqV] at h
  | .list _, .int _, h => by simp [beqV] at h
  | .list _, .str _, h => by simp [beqV] at h
  | .list a, .list b, h => by
      simp only [beqV] at h
      exact congrArg JValue.list (beqL_eq a b h)
  | .list _, .dict _, h => by simp [beqV] at h
  | .dict _, .null, h => by simp [beqV] at h
  | .dict _, .bool _, h => by simp [beqV] at h
  | .dict _, .int _, h => by simp [beqV] at h
  | .dict _, .str _, h => by simp [beqV] at h
  | .dict _, .list _, h => by simp [beqV] at h
  | .dict a, .dict b, h => by
      simp only [beqV] at h
      exact congrArg JValue.dict (beqF_eq a b h)

theorem beqL_eq : (a b : List JValue) → beqL a b = true → a = b
  | [], [], _ => rfl
  | [], _ :: _, h => by simp [beqL] at h
  | _ :: _, [], h => by simp [beqL] at h
  | x :: xs, y :: ys, h => by
      simp only [beqL, Bool.and_eq_true] at h
      exact by rw [beqV_eq x y h.1, beqL_eq xs ys h.2]

theorem beqF_eq : (a b : List (String × JValue)) → beqF a b = true → a = b
  | [], [], _ => rfl
  | [], _ :: _, h => by simp [beqF] at h
  | _ :: _, [], h => by simp [beqF] at h
  | (k1, v1) :: xs, (k2, v2) :: ys, h => by
      simp only [beqF, Bool.and_eq_true] at h
      obtain ⟨⟨hk, hv⟩, ht⟩ := h
      rw [beqV_eq v1 v2 hv, beqF_eq xs ys ht, show k1 = k2 by simpa using hk]

end

theorem optBeq_eq (a b : Option JValue) (h : optBeq a b = true) : a = b := by
  cases a <;> cases b <;> simp [optBeq] at h ⊢
  exact beqV_eq _ _ h

theorem fileOkOf_iff (target_abs : String) (loc : JValue) :
    fileOkOf target_abs loc = true ↔
      (strFileOf loc = "" ∨ fileAbsOf (strFileOf loc) = target_abs ∨
        basename (fileAbsOf (strFileOf loc)) = basename target_abs) := by
  unfold fileOkOf
  split_ifs with h1 h2 <;> simp_all

/-! ### Behaviour of `process_location` -/

theorem addTag_self (m : LineMap) (L : Int) (k : String) : k ∈ addTag m L k L := by
  simp [addTag]

theorem addTag_apply_ne (m : LineMap) (L : Int) (k : String) (l : Int) (h : l ≠ L) :
    addTag m L k l = m l := by
  simp [addTag, h]

theorem addTag_mem_mono (m : LineMap) (L : Int) (kind : String) (l : Int) (k : String)
    (h : k ∈ m l) : k ∈ addTag m L kind l := by
  unfold addTag
  split_ifs with h1
  · exact Finset.mem_insert_of_mem h
  · exact h

/-- When every guard passes, `process_location` adds exactly one tag at the
location's line. -/
theorem process_location_spec (target_abs filter_config : String) (loc : JValue)
    (kind : String) (L : Int) (m : LineMap)
    (hl : locLineOf loc = some L) (hf : fileOkOf target_abs loc = true)
    (hk : kind ≠ "") (hinc : should_include_node kind filter_config = true) :
    process_location target_abs filter_config loc (some kind) m = addTag m L kind := by
  unfold locLineOf at hl
  unfold process_location
  by_cases htd : (loc.truthy && loc.isDict) = true
  · rw [if_pos htd] at hl
    rw [if_pos htd]
    simp only [hl]
    rw [if_neg hk]
    by_cases hfp : strFileOf loc = ""
    · rw [if_pos hfp, if_pos hinc]
    · rw [if_neg hfp]
      have hcond : fileAbsOf (strFileOf loc) = target_abs ∨
          basename (fileAbsOf (strFileOf loc)) = basename target_abs := by
        rcases (fileOkOf_iff target_abs loc).mp hf with h | h
        · exact absurd h hfp
        · exact h
      rw [if_pos hcond, if_pos hinc]
  · rw [if_neg htd] at hl
    cases hl

/-- `process_location` leaves every line other than the location's own line
unchanged. -/
theorem process_location_apply_ne (target_abs filter_config : String) (loc : JValue)
    (nk : Option String) (m : LineMap) (l : Int)
    (h : ∀ L, locLineOf loc = some L → L ≠ l) :
    process_location target_abs filter_config loc nk m l = m l := by
  unfold process_location
  by_cases htd : (loc.truthy && loc.isDict) = true
  · rw [if_pos htd]
    cases hlv : lineVal loc with
    | none => rfl
    | some L =>
      have hLl : L ≠ l := h L (by unfold locLineOf; rw [if_pos htd, hlv])
      cases nk with
      | none => rfl
      | some kind =>
        dsimp only
        split_ifs <;> first
          | rfl
          | exact addTag_apply_ne m L kind l (Ne.symm hLl)
  · rw [if_neg htd]

/-- `process_location` never removes a tag from the map. -/
theorem process_location_mem_mono (target_abs filter_config : String) (loc : JValue)
    (nk : Option String) (m : LineMap) (l : Int) (k : String) (h : k ∈ m l) :
    k ∈ process_location target_abs filter_config loc nk m l := by
  unfold process_location
  by_cases htd : (loc.truthy && loc.isDict) = true
  · rw [if_pos htd]
    cases hlv : lineVal loc with
    | none => exact h
    | some L =>
      cases nk with
      | none => exact h
      | some kind =>
        dsimp only
        split_ifs <;> first
          | exact h
          | exact addTag_mem_mono m _ _ l k h
  · rw [if_neg htd]; exact h

/-- `process_location` adds nothing when the node kind is missing or rejected
by the filter. -/
theorem process_location_excluded (target_abs filter_config : String) (loc : JValue)
    (nk : Option String) (m : LineMap)
    (h : ∀ k, nk = some k → (k ≠ "" → should_include_node k filter_config = false)) :
    process_location target_abs filter_config loc nk m = m := by
  unfold process_location
  by_cases htd : (loc.truthy && loc.isDict) = true
  · rw [if_pos htd]
    cases hlv : lineVal loc with
    | none => rfl
    | some L =>
      cases nk with
      | none => rfl
      | some kind =>
        have hks := h kind rfl
        dsimp only
        split_ifs <;> first
          | rfl
          | exact absurd (by assumption) (by simp [hks (by assumption)])
  · rw [if_neg htd]

theorem processLoc_excluded (target_abs filter_config : String) (node : JValue)
    (nk : Option String) (m : LineMap)
    (h : ∀ k, nk = some k → (k ≠ "" → should_include_node k filter_config = false)) :
    processLoc target_abs filter_config node nk m = m := by
  unfold processLoc
  cases node.getField "loc" with
  | none => rfl
  | some loc =>
    dsimp only
    split_ifs with h1
    · exact process_location_excluded target_abs filter_config loc nk m h
    · rfl

theorem processRange_excluded (target_abs filter_config : String) (node : JValue)
    (nk : Option String) (m : LineMap)
    (h : ∀ k, nk = some k → (k ≠ "" → should_include_node k filter_config = false)) :
    processRange target_abs filter_config node nk m = m := by
  unfold processRange
  cases node.getField "range" with
  | none => rfl
  | some range_info =>
    dsimp only
    split_ifs with h1
    · cases range_info.getField "begin" <;> cases range_info.getField "end" <;>
        dsimp only <;> (try split_ifs) <;>
        first
          | rfl
          | simp only [process_location_excluded target_abs filter_config _ nk _ h]
    · rfl

/-! ### Soundness of the correlation engine with respect to the filter -/

/-- Every tag recorded in the map satisfies the active profile. -/
def SoundMap (filter_config : String) (m : LineMap) : Prop :=
  ∀ (l : Int) (k : String), k ∈ m l → should_include_node k filter_config = true

theorem addTag_sound (filter_config : String) (m : LineMap) (line : Int) (kind : String)
    (h : SoundMap filter_config m) (hk : should_include_node kind filter_config = true) :
    SoundMap filter_config (addTag m line kind) := by
  intro l k hkm
  unfold addTag at hkm
  by_cases hl : l = line
  · rw [if_pos hl] at hkm
    rcases Finset.mem_insert.mp hkm with h1 | h1
    · rw [h1]; exact hk
    · exact h l k h1
  · rw [if_neg hl] at hkm
    exact h l k hkm

theorem process_location_sound (target_abs filter_config : String) (loc : JValue)
    (nk : Option String) (m : LineMap) (h : SoundMap filter_config m) :
    SoundMap filter_config (process_location target_abs filter_config loc nk m) := by
  unfold process_location
  by_cases htd : (loc.truthy && loc.isDict) = true
  · rw [if_pos htd]
    cases hlv : lineVal loc with
    | none => exact h
    | some L =>
      cases nk with
      | none => exact h
      | some kind =>
        dsimp only
        split_ifs <;> first
          | exact h
          | exact addTag_sound filter_config m L kind h (by assumption)
  · rw [if_neg htd]; exact h

theorem processLoc_sound (target_abs filter_config : String) (node : JValue)
    (nk : Option String) (m : LineMap) (h : SoundMap filter_config m) :
    SoundMap filter_config (processLoc target_abs filter_config node nk m) := by
  unfold processLoc
  cases node.getField "loc" with
  | none => exact h
  | some loc =>
    dsimp only
    split_ifs with h1
    · exact process_location_sound target_abs filter_config loc nk m h
    · exact h

theorem processRange_sound (target_abs filter_config : String) (node : JValue)
    (nk : Option String) (m : LineMap) (h : SoundMap filter_config m) :
    SoundMap filter_config (processRange target_abs filter_config node nk m) := by
  unfold processRange
  cases node.getField "range" with
  | none => exact h
  | some range_info =>
    dsimp only
    split_ifs with h1
    · cases range_info.getField "begin" <;> cases range_info.getField "end" <;>
        dsimp only <;> (try split_ifs) <;>
        first
          | exact h
          | exact process_location_sound _ _ _ _ _ h
          | exact process_location_sound _ _ _ _ _ (process_location_sound _ _ _ _ _ h)
    · exact h

mutual

theorem collect_sound (target_abs filter_config : String) :
    (v : JValue) → (m : LineMap) → SoundMap filter_config m →
      SoundMap filter_config (collect target_abs filter_config v m)
  | .null, _, h => h
  | .bool _, _, h => h
  | .int _, _, h => h
  | .str _, _, h => h
  | .list items, m, h => by
      simp only [collect]
      exact collectList_sound target_abs filter_config items m h
  | .dict fields, m, h => by
      simp only [collect]
      exact collectFields_sound target_abs filter_config fields _
        (processRange_sound _ _ _ _ _ (processLoc_sound _ _ _ _ _ h))

theorem collectList_sound (target_abs filter_config : String) :
    (l : List JValue) → (m : LineMap) → SoundMap filter_config m →
      SoundMap filter_config (collectList target_abs filter_config l m)
  | [], _, h => h
  | x :: xs, m, h => by
      simp only [collectList]
      exact collectList_sound target_abs filter_config xs _
        (collect_sound target_abs filter_config x m h)

theorem collectFields_sound (target_abs filter_config : String) :
    (l : List (String × JValue)) → (m : LineMap) → SoundMap filter_config m →
      SoundMap filter_config (collectFields target_abs filter_config l m)
  | [], _, h => h
  | (_, v) :: xs, m, h => by
      simp only [collectFields]
      exact collectFields_sound target_abs filter_config xs _
        (collect_sound target_abs filter_config v m h)

end

theorem emptyMap_sound (filter_config : String) : SoundMap filter_config emptyMap := by
  intro l k hk
  simp [emptyMap] at hk

/-! ### The claims -/

/-- C1: Filter soundness — for every input tree, target file, profile among
the five named profiles, and line, every tag in the `LineTagMap` produced by
`collect_line_annotations` satisfies the active profile's predicate. -/
theorem filter_soundness (target_abs filter_config : String) (tree : JValue)
    (line : Int) (tag : String)
    (hp : filter_config ∈ ["minimal", "clean", "declarations", "statements", "all"])
    (htag : tag ∈ collect target_abs filter_config tree emptyMap line) :
    should_include_node tag filter_config = true :=
  collect_sound target_abs filter_config tree emptyMap
    (emptyMap_sound filter_config) line tag htag

theorem filter_soundness_witness :
    should_include_node "IfStmt" "statements" = true :=
  filter_soundness "/a.cpp" "statements"
    (JValue.dict [("kind", JValue.str "IfStmt"), ("loc", JValue.dict [("line", JValue.int 3)])])
    3 "IfStmt" (by decide) (by decide)

/-- C2: Range registration — the range-processing step of
`collect_line_annotations` registers a node's kind at the line of
`range.begin` and at the line of `range.end` only: both lines receive the
kind, a same-line range yields the singleton tag set (the kind appears once,
not twice), and no other line (in particular no interior line of the range)
is touched. -/
theorem range_registration (target_abs filter_config : String)
    (node range_info b e : JValue) (kind : String) (lb le : Int)
    (hr : node.getField "range" = some range_info)
    (hrd : (range_info.truthy && range_info.isDict) = true)
    (hb : range_info.getField "begin" = some b)
    (he : range_info.getField "end" = some e)
    (hbt : b.truthy = true) (het : e.truthy = true)
    (hlb : locLineOf b = some lb) (hle : locLineOf e = some le)
    (hbf : fileOkOf target_abs b = true) (hef : fileOkOf target_abs e = true)
    (hk : kind ≠ "") (hinc : should_include_node kind filter_config = true) :
    kind ∈ processRange target_abs filter_config node (some kind) emptyMap lb ∧
    kind ∈ processRange target_abs filter_config node (some kind) emptyMap le ∧
    (lb = le → processRange target_abs filter_config node (some kind) emptyMap lb = {kind}) ∧
    (∀ l : Int, l ≠ lb → l ≠ le →
      processRange target_abs filter_config node (some kind) emptyMap l = ∅) := by
  have hbody : processRange target_abs filter_config node (some kind) emptyMap =
      (if e.truthy && !(optBeq (some e) (some b)) then
        process_location target_abs filter_config e (some kind) (addTag emptyMap lb kind)
      else addTag emptyMap lb kind) := by
    unfold processRange
    rw [hr]
    dsimp only
    rw [if_pos hrd, hb, he]
    dsimp only
    rw [if_pos hbt,
      process_location_spec target_abs filter_config b kind lb emptyMap hlb hbf hk hinc]
  cases hbe : (e.truthy && !(optBeq (some e) (some b))) with
  | false =>
    have heb : e = b := by
      rw [het, Bool.true_and, Bool.not_eq_false'] at hbe
      exact Option.some.inj (optBeq_eq _ _ hbe)
    have hll : lb = le := by
      rw [heb, hlb] at hle
      exact Option.some.inj hle
    have hres : processRange target_abs filter_config node (some kind) emptyMap =
        addTag emptyMap lb kind := by
      rw [hbody, hbe]
      simp
    refine ⟨?_, ?_, ?_, ?_⟩
    · rw [hres]; exact addTag_self emptyMap lb kind
    · rw [hres, ← hll]; exact addTag_self emptyMap lb kind
    · intro _
      rw [hres]
      simp [addTag, emptyMap]
    · intro l hlb' _
      rw [hres, addTag_apply_ne emptyMap lb kind l hlb']
      rfl
  | true =>
    have hres : processRange target_abs filter_config node (some kind) emptyMap =
        addTag (addTag emptyMap lb kind) le kind := by
      rw [hbody, if_pos hbe,
        process_location_spec target_abs filter_config e kind le _ hle hef hk hinc]
    refine ⟨?_, ?_, ?_, ?_⟩
    · rw [hres]
      exact addTag_mem_mono _ le kind lb kind (addTag_self emptyMap lb kind)
    · rw [hres]; exact addTag_self _ le kind
    · intro hll
      rw [hres, ← hll]
      simp [addTag, emptyMap]
    · intro l hlb' hle'
      rw [hres, addTag_apply_ne _ le kind l hle', addTag_apply_ne emptyMap lb kind l hlb']
      rfl

theorem range_registration_witness :
    ("ForStmt" ∈ processRange "/a.cpp" "clean"
        (JValue.dict [("range", JValue.dict
          [("begin", JValue.dict [("line", JValue.int 10)]),
           ("end", JValue.dict [("line", JValue.int 25)])])])
        (some "ForStmt") emptyMap 10) ∧
    ("ForStmt" ∈ processRange "/a.cpp" "clean"
        (JValue.dict [("range", JValue.dict
          [("begin", JValue.dict [("line", JValue.int 10)]),
           ("end", JValue.dict [("line", JValue.int 25)])])])
        (some "ForStmt") emptyMap 25) ∧
    processRange "/a.cpp" "clean"
        (JValue.dict [("range", JValue.dict
          [("begin", JValue.dict [("line", JValue.int 10)]),
           ("end", JValue.dict [("line", JValue.int 25)])])])
        (some "ForStmt") emptyMap 17 = ∅ := by
  have h := range_registration "/a.cpp" "clean"
    (JValue.dict [("range", JValue.dict
      [("begin", JValue.dict [("line", JValue.int 10)]),
       ("end", JValue.dict [("line", JValue.int 25)])])])
    (JValue.dict [("begin", JValue.dict [("line", JValue.int 10)]),
      ("end", JValue.dict [("line", JValue.int 25)])])
    (JValue.dict [("line", JValue.int 10)]) (JValue.dict [("line", JValue.int 25)])
    "ForStmt" 10 25 rfl (by decide) rfl rfl (by decide)
    (by decide) (by decide) (by decide) (by decide) (by decide) (by decide) (by decide)
  exact ⟨h.1, h.2.1, h.2.2.2 17 (by decide) (by decide)⟩

/-- C6 counterexample: a location that carries a `file` field whose value is
the empty string does not denote the target file (neither path equality nor
basename equality holds), yet `process_location` includes it, registering the
kind at its line.  The claim's "included if and only if it denotes the target
file" therefore fails for locations with an empty `file` field. -/
theorem location_ownership_counterexample :
    ("IfStmt" ∈ process_location "/tmp/a.cpp" "all"
        (JValue.dict [("file", JValue.str ""), ("line", JValue.int 1)])
        (some "IfStmt") emptyMap 1) ∧
    ¬ (fileAbsOf "" = "/tmp/a.cpp" ∨ basename (fileAbsOf "") = basename "/tmp/a.cpp") := by
  decide

/-- C6 (amended): Location ownership — a location whose `file` field is
absent *or empty* is included unconditionally; a location carrying a
non-empty `file` field is included if and only if it denotes the target file,
by absolute-path equality or, failing that, by basename equality.  (Stated
for a location that passes the line/kind/filter guards, over the empty map.) -/
theorem location_ownership (target_abs filter_config : String) (loc : JValue)
    (kind : String) (L : Int)
    (hl : locLineOf loc = some L) (hk : kind ≠ "")
    (hinc : should_include_node kind filter_config = true) :
    (kind ∈ process_location target_abs filter_config loc (some kind) emptyMap L) ↔
      (strFileOf loc = "" ∨ fileAbsOf (strFileOf loc) = target_abs ∨
        basename (fileAbsOf (strFileOf loc)) = basename target_abs) := by
  cases hfo : fileOkOf target_abs loc with
  | false =>
    have hfo' : ¬(strFileOf loc = "" ∨ fileAbsOf (strFileOf loc) = target_abs ∨
        basename (fileAbsOf (strFileOf loc)) = basename target_abs) := by
      intro hrhs
      have := (fileOkOf_iff target_abs loc).mpr hrhs
      rw [hfo] at this
      cases this
    push_neg at hfo'
    obtain ⟨hf1, hf2, hf3⟩ := hfo'
    have hno : process_location target_abs filter_config loc (some kind) emptyMap = emptyMap := by
      unfold process_location
      unfold locLineOf at hl
      by_cases htd : (loc.truthy && loc.isDict) = true
      · rw [if_pos htd] at hl
        rw [if_pos htd, hl]
        dsimp only
        rw [if_neg hk, if_neg hf1, if_neg (not_or.mpr ⟨hf2, hf3⟩)]
      · rw [if_neg htd]
    constructor
    · intro hmem
      rw [hno] at hmem
      exact absurd hmem (by simp [emptyMap])
    · intro hrhs
      have := (fileOkOf_iff target_abs loc).mpr hrhs
      rw [hfo] at this
      cases this
  | true =>
    rw [process_location_spec target_abs filter_config loc kind L emptyMap hl hfo hk hinc]
    exact iff_of_true (addTag_self emptyMap L kind) ((fileOkOf_iff target_abs loc).mp hfo)

theorem location_ownership_witness :
    ("ReturnStmt" ∈ process_location "/tmp/a.cpp" "all"
        (JValue.dict [("file", JValue.str "a.cpp"), ("line", JValue.int 3)])
        (some "ReturnStmt") emptyMap 3) ↔
      (strFileOf (JValue.dict [("file", JValue.str "a.cpp"), ("line", JValue.int 3)]) = "" ∨
        fileAbsOf (strFileOf (JValue.dict [("file", JValue.str "a.cpp"), ("line", JValue.int 3)])) = "/tmp/a.cpp" ∨
        basename (fileAbsOf (strFileOf (JValue.dict [("file", JValue.str "a.cpp"), ("line", JValue.int 3)]))) =
          basename "/tmp/a.cpp") :=
  location_ownership "/tmp/a.cpp" "all"
    (JValue.dict [("file", JValue.str "a.cpp"), ("line", JValue.int 3)])
    "ReturnStmt" 3 (by decide) (by decide) (by decide)

/-- C7: Filtering is per-node, not a traversal cutoff — on a node whose own
kind is missing or rejected by the active profile, `collect_line_annotations`
registers nothing for the node itself and proceeds exactly as the plain
recursion over all the node's field values, so every nested node is still
visited and may contribute its own tags. -/
theorem per_node_filtering (target_abs filter_config : String)
    (fields : List (String × JValue)) (m : LineMap)
    (h : ∀ k, kindOf (JValue.dict fields) = some k →
      (k ≠ "" → should_include_node k filter_config = false)) :
    collect target_abs filter_config (JValue.dict fields) m =
      collectFields target_abs filter_config fields m := by
  simp only [collect]
  rw [processLoc_excluded target_abs filter_config _ _ m h,
    processRange_excluded target_abs filter_config _ _ m h]

theorem per_node_filtering_witness :
    collect "/a.cpp" "clean"
      (JValue.dict [("kind", JValue.str "ParenExpr"),
        ("inner", JValue.dict [("kind", JValue.str "IfStmt"),
          ("loc", JValue.dict [("line", JValue.int 2)])])])
      emptyMap =
    collectFields "/a.cpp" "clean"
      [("kind", JValue.str "ParenExpr"),
        ("inner", JValue.dict [("kind", JValue.str "IfStmt"),
          ("loc", JValue.dict [("line", JValue.int 2)])])]
      emptyMap :=
  per_node_filtering "/a.cpp" "clean" _ emptyMap
    (by intro k hk _; cases hk; decide)

/-- C10: Unknown profile names admit everything — `should_include_node`
returns `true` for every kind whenever the profile name is none of
"minimal", "clean", "declarations", "statements" (misspellings and the empty
string included), behaving exactly like the "all" profile. -/
theorem unknown_profile_admits_all (kind filter_config : String)
    (h : filter_config ∉ ["minimal", "clean", "declarations", "statements"]) :
    should_include_node kind filter_config = true := by
  unfold should_include_node
  split_ifs with h1 h2 h3 h4
  · exact absurd (by simp [h1]) h
  · exact absurd (by simp [h2]) h
  · exact absurd (by simp [h3]) h
  · exact absurd (by simp [h4]) h
  · rfl

theorem unknown_profile_admits_all_witness :
    should_include_node "MaterializeTemporaryExpr" "cleam" = true :=
  unknown_profile_admits_all "MaterializeTemporaryExpr" "cleam" (by decide)

/-! ### Lemmas about the explanation synthesizer -/

theorem mem_insertSorted (x a : String) (l : List String) :
    a ∈ insertSorted x l ↔ a = x ∨ a ∈ l := by
  induction l with
  | nil => simp [insertSorted]
  | cons y ys ih =>
    unfold insertSorted
    split_ifs with h1
    · simp
    · simp only [List.mem_cons, ih]
      tauto

theorem mem_sortStrings (a : String) (l : List String) :
    a ∈ sortStrings l ↔ a ∈ l := by
  induction l with
  | nil => simp [sortStrings]
  | cons x xs ih => simp [sortStrings, mem_insertSorted, ih]

theorem firstPattern_least (s : List String) (pats : List (List String × String))
    (i : Nat) (hi : i < pats.length)
    (hm : ((pats.get ⟨i, hi⟩).1.all fun n => decide (n ∈ s)) = true)
    (hlt : ∀ p ∈ pats.take i, (p.1.all fun n => decide (n ∈ s)) = false) :
    firstPattern s pats = some (pats.get ⟨i, hi⟩).2 := by
  induction pats generalizing i with
  | nil => exact absurd hi (by simp)
  | cons p rest ih =>
    obtain ⟨pat, txt⟩ := p
    cases i with
    | zero =>
      simp only [firstPattern]
      rw [if_pos (show (pat.all fun n => decide (n ∈ s)) = true from hm)]
      rfl
    | succ j =>
      have h0 : ((pat.all fun n => decide (n ∈ s))) = false :=
        hlt (pat, txt) (by simp [List.take_succ_cons])
      simp only [firstPattern]
      rw [if_neg (by simp [h0])]
      exact ih j (Nat.lt_of_succ_lt_succ hi) hm
        (fun q hq => hlt q (by simp [List.take_succ_cons, hq]))

theorem firstPattern_none (s : List String) (pats : List (List String × String))
    (h : ∀ p ∈ pats, (p.1.all fun n => decide (n ∈ s)) = false) :
    firstPattern s pats = none := by
  induction pats with
  | nil => rfl
  | cons p rest ih =>
    obtain ⟨pat, txt⟩ := p
    have h0 := h (pat, txt) (List.mem_cons_self _ _)
    simp only [firstPattern]
    rw [if_neg (by simp [h0])]
    exact ih (fun q hq => h q (List.mem_cons_of_mem _ hq))

/-- The detailed explanation is the plain explanation followed by the first
matching heuristic's annotation. -/
theorem get_detailed_decomp (tags : List String) (source_line : String) :
    get_detailed_explanation tags source_line =
      explain_ast_nodes tags source_line ++
        firstHeuristic heuristicList (trimStr (lowerStr source_line)) := by
  unfold get_detailed_explanation
  simp only [firstHeuristic, heuristicList]
  split_ifs <;> simp

/-! ### The explanation-synthesizer claims -/

/-- C3: Pattern priority — `explain_ast_nodes` returns the text of the first
pattern rule (in catalog order) whose entire tag list is contained in the
line's tag set: if rule `i` matches and every earlier rule fails to match,
the result is rule `i`'s text. -/
theorem pattern_priority (tags : List String) (source_line : String) (i : Nat)
    (hi : i < patterns.length) (hne : tags ≠ [])
    (hm : ∀ n ∈ (patterns.get ⟨i, hi⟩).1, n ∈ tags)
    (hlt : ∀ p ∈ patterns.take i, ∃ n ∈ p.1, n ∉ tags) :
    explain_ast_nodes tags source_line = (patterns.get ⟨i, hi⟩).2 := by
  have hm' : ((patterns.get ⟨i, hi⟩).1.all fun n => decide (n ∈ sortStrings tags)) = true := by
    simp only [List.all_eq_true, decide_eq_true_eq]
    intro n hn
    exact (mem_sortStrings n tags).mpr (hm n hn)
  have hlt' : ∀ p ∈ patterns.take i,
      (p.1.all fun n => decide (n ∈ sortStrings tags)) = false := by
    intro p hp
    obtain ⟨n, hn, hnt⟩ := hlt p hp
    apply Bool.eq_false_iff.mpr
    intro hall
    rw [List.all_eq_true] at hall
    have := hall n hn
    rw [decide_eq_true_eq] at this
    exact hnt ((mem_sortStrings n tags).mp this)
  unfold explain_ast_nodes
  rw [if_neg hne]
  dsimp only
  rw [firstPattern_least (sortStrings tags) patterns i hi hm' hlt']

theorem pattern_priority_witness :
    explain_ast_nodes ["FunctionDecl", "ParmVarDecl"] "" =
      "defines a function that takes parameters" := by
  have h := pattern_priority ["FunctionDecl", "ParmVarDecl"] "" 1 (by decide)
    (by decide) (by decide) (by decide)
  exact h

/-- C4 counterexample: for the tag set
`{BreakStmt, ContinueStmt, GotoStmt}` (no pattern rule matches), the
synthesizer does not return the bare Oxford-style enumeration of the three
descriptions: it prefixes the extra word "combines". -/
theorem fallback_join_counterexample :
    explain_ast_nodes ["BreakStmt", "ContinueStmt", "GotoStmt"] "" ≠
      "breaks out of a loop or switch statement, continues to the next iteration of a loop, and represents a goto statement" := by
  decide

/-- C4 (amended): Fallback join rule — when no pattern rule matches a
non-empty tag set, the per-tag descriptions, in lexicographically sorted tag
order, are combined as follows: exactly one description is returned verbatim;
exactly two are joined with " and "; three or more are joined with commas
between all but the last, then ", and ", then the last, with the prefix
"combines " prepended. -/
theorem fallback_join (tags : List String) (source_line : String)
    (hne : tags ≠ [])
    (hnopat : firstPattern (sortStrings tags) patterns = none) :
    explain_ast_nodes tags source_line =
      combineDescriptions ((sortStrings tags).map describeTag) := by
  unfold explain_ast_nodes
  rw [if_neg hne]
  dsimp only
  rw [hnopat]
  generalize (sortStrings tags).map describeTag = es
  cases es with
  | nil => rfl
  | cons a t =>
    cases t with
    | nil => rfl
    | cons b u =>
      cases u with
      | nil => rfl
      | cons c w => rfl

theorem fallback_join_witness :
    explain_ast_nodes ["GotoStmt", "BreakStmt", "ContinueStmt"] "" =
      combineDescriptions ((sortStrings ["GotoStmt", "BreakStmt", "ContinueStmt"]).map describeTag) :=
  fallback_join ["GotoStmt", "BreakStmt", "ContinueStmt"] "" (by decide) (by decide)

/-- C5 counterexample: an unknown tag is described as
"AST node: UnheardOfNodeXYZ", not as
"unrecognized category: UnheardOfNodeXYZ" as the claim states. -/
theorem unknown_tag_counterexample :
    explain_ast_nodes ["UnheardOfNodeXYZ"] "" = "AST node: UnheardOfNodeXYZ" ∧
    explain_ast_nodes ["UnheardOfNodeXYZ"] "" ≠ "unrecognized category: UnheardOfNodeXYZ" := by
  decide

/-- C5 (amended): Unknown tag tolerance and format — the fallback phase never
fails on a tag with no catalog description: it synthesizes the description
"AST node: <tag>" for that tag. -/
theorem unknown_tag_generic (tag : String) (h : lookupExpl tag = none) :
    explain_ast_nodes [tag] "" = "AST node: " ++ tag := by
  have hne : ([tag] : List String) ≠ [] := by simp
  have hnotmem : ∀ e : String, lookupExpl e ≠ none →
      (decide (e ∈ ([tag] : List String))) = false := by
    intro e he
    rw [decide_eq_false_iff_not, List.mem_singleton]
    rintro rfl
    exact he h
  have nFD := hnotmem "FunctionDecl" (by decide)
  have nCE := hnotmem "CallExpr" (by decide)
  have nVD := hnotmem "VarDecl" (by decide)
  have nAO := hnotmem "AssignmentOperator" (by decide)
  have nIF := hnotmem "IfStmt" (by decide)
  have nFS := hnotmem "ForStmt" (by decide)
  have nWS := hnotmem "WhileStmt" (by decide)
  have nRD := hnotmem "CXXRecordDecl" (by decide)
  have nCD := hnotmem "CXXConstructorDecl" (by decide)
  have nBO := hnotmem "BinaryOperator" (by decide)
  have nAS := hnotmem "ArraySubscriptExpr" (by decide)
  have nNE := hnotmem "CXXNewExpr" (by decide)
  have nDE := hnotmem "CXXDeleteExpr" (by decide)
  have hnp : firstPattern [tag] patterns = none := by
    apply firstPattern_none
    intro p hp
    unfold patterns at hp
    fin_cases hp <;> dsimp only <;>
      simp only [List.all_cons, List.all_nil, nFD, nCE, nVD, nAO, nIF, nFS, nWS,
        nRD, nCD, nBO, nAS, nNE, nDE, Bool.false_and]
  have hsort : sortStrings [tag] = [tag] := rfl
  unfold explain_ast_nodes
  rw [if_neg hne]
  dsimp only
  rw [hsort, hnp]
  simp only [List.map_cons, List.map_nil]
  unfold describeTag
  rw [h]

theorem unknown_tag_generic_witness :
    explain_ast_nodes ["UnheardOfNodeXYZ"] "" = "AST node: " ++ "UnheardOfNodeXYZ" :=
  unknown_tag_generic "UnheardOfNodeXYZ" (by decide)

/-- C8: Detailed contextual suffix — with detailed mode enabled, the
synthesizer appends to the plain explanation exactly the annotation of the
first heuristic (in the fixed order: entry-point call, type-definition
prefix, include-directive prefix, output token, input token, assignment
pattern) that matches the case-folded, trimmed source text, and appends
nothing when none match; the heuristics read only the text, never the tags. -/
theorem detailed_suffix (tags : List String) (source_line : String) :
    get_detailed_explanation tags source_line =
      explain_ast_nodes tags source_line ++
        firstHeuristic heuristicList (trimStr (lowerStr source_line)) :=
  get_detailed_decomp tags source_line

/-- C9: Detailed extends plain — the detailed explanation is the plain
explanation followed by at most one parenthesized suffix (so the plain
explanation is a prefix of the detailed one), and for an empty tag set with a
source line matching no heuristic both are empty. -/
theorem detailed_extends_plain (tags : List String) (source_line : String) :
    (∃ suffix : String,
      get_detailed_explanation tags source_line =
        explain_ast_nodes tags source_line ++ suffix ∧
      (suffix = "" ∨ suffix ∈ [" (this is the program\x27s entry point)",
        " (defining a new data type)", " (including external code)",
        " (performing output operation)", " (performing input operation)",
        " (assignment or initialization)"])) ∧
    (tags = [] → firstHeuristic heuristicList (trimStr (lowerStr source_line)) = "" →
      explain_ast_nodes tags source_line = "" ∧
        get_detailed_explanation tags source_line = "") := by
  constructor
  · refine ⟨firstHeuristic heuristicList (trimStr (lowerStr source_line)),
      get_detailed_decomp tags source_line, ?_⟩
    simp only [firstHeuristic, heuristicList]
    split_ifs <;> simp
  · rintro rfl hnone
    have he : explain_ast_nodes [] source_line = "" := by simp [explain_ast_nodes]
    refine ⟨he, ?_⟩
    rw [get_detailed_decomp [] source_line, he, hnone]
    simp

theorem detailed_extends_plain_witness :
    explain_ast_nodes [] "" = "" ∧ get_detailed_explanation [] "" = "" :=
  (detailed_extends_plain [] "").2 rfl (by decide)

end Annotate
